import Mathlib

/-!
Verification of the portfolio motion system (`public/scripts/animations.js`).

The script is shallowly embedded: DOM elements become a structure carrying
the declarative `data-*` attributes the script reads; inline styles become a
four-field record (the only style properties the script ever writes);
the two subsystems (intro runner, reveal watcher) become pure functions from
the reduced-motion flag and the flagged element lists to a description of
what the subsystem does (final styles, animation plans, observer state).

Modelling conventions:
 - Numeric attributes (`data-intro-order`, `data-intro-delay`,
   `data-reveal-delay`) are modelled as `Option Int`: `none` is an absent
   attribute, `some d` an attribute whose JS `Number(...)` coercion yields
   the integer `d`.  (Non-numeric values, which coerce to `NaN`, are outside
   the model.)
 - String attributes (`data-intro-from`, `data-reveal-from`,
   `data-reveal-once`) are modelled as `Option String`.
 - JS `attr || 'up'` (null or empty string falls back) is `jsOrString`.
 - `String.prototype.toLowerCase` is `toLowerCase` below, mapping
   `Char.toLower` over the characters, matching the script's ASCII usage.
 - JS `Array.prototype.sort` is stable (ES2019); with the integer-subtraction
   comparator of `runIntro` it is modelled by `List.mergeSort`, which is the
   stable sort on lists.
 - `IntersectionObserver` is modelled by its target set (`List Elem`) plus
   the callback: the host delivers to the callback only entries whose target
   is currently observed (`deliver`), and the callback (`processEntries`)
   follows the source line by line.
-/

/-- The declarative attribute surface the script reads from an element. -/
structure Attrs where
  introOrder : Option Int := none
  introDelay : Option Int := none
  introFrom : Option String := none
  revealFrom : Option String := none
  revealDelay : Option Int := none
  revealOnce : Option String := none
deriving DecidableEq, Repr

/-- A DOM element: an identity plus its animation attributes. -/
structure Elem where
  id : Nat
  attrs : Attrs := {}
deriving DecidableEq, Repr

/-- The inline style properties the script writes.  The empty string means
the property is not set (cleared), as assigning `''` does in the DOM. -/
structure Style where
  opacity : String := ""
  transform : String := ""
  transition : String := ""
  willChange : String := ""
deriving DecidableEq, Repr

/-- An element's inline style before the script touches it. -/
def emptyStyle : Style := {}

/-- JS `v || dflt` for a nullable string: `null` and `''` are falsy. -/
def jsOrString (v : Option String) (dflt : String) : String :=
  match v with
  | none => dflt
  | some s => if s = "" then dflt else s

/-- JS `String.prototype.toLowerCase`, as used by the script on ASCII
direction keywords: `Char.toLower` mapped over the characters. -/
def toLowerCase (s : String) : String :=
  String.mk (s.data.map Char.toLower)

/-- `translateFrom(from, px)` from the source: switch on the lowercased
direction (with `from || 'up'` applied by the JS falsy-or). -/
def translateFrom (dir : String) (px : Nat) : String :=
  let t := toLowerCase (if dir = "" then "up" else dir)
  if t = "down" then s!"translateY(-{px}px)"
  else if t = "left" then s!"translateX({px}px)"
  else if t = "right" then s!"translateX(-{px}px)"
  else if t = "fade" then "translateZ(0)"
  else s!"translateY({px}px)"

/-- `setInitialState(el, from)`: opacity 0, will-change hint, and the
10px-offset transform for the direction. -/
def setInitialState (st : Style) (dir : String := "up") : Style :=
  { st with
    opacity := "0"
    willChange := "opacity, transform"
    transform := translateFrom dir 10 }

/-- The transition shorthand string `animateIn` writes. -/
def transitionValue (duration : Int) (easing : String) (delay : Int) : String :=
  s!"opacity {duration}ms {easing} {delay}ms, transform {duration}ms {easing} {delay}ms"

/-- `animateIn(el, {delay, duration, easing})`: sets the transition and the
end state (opacity 1, transform none). -/
def animateIn (st : Style) (delay : Int := 0) (duration : Int := 800)
    (easing : String := "cubic-bezier(0.19, 1, 0.22, 1)") : Style :=
  { st with
    transition := transitionValue duration easing delay
    opacity := "1"
    transform := "none" }

/-- The fixed safety window of `clearTransition` (ms). -/
def clearTransitionDelay : Int := 1100

/-- The style writes `clearTransition` performs once its timer fires:
every animation-related inline override is cleared. -/
def clearTransitionStyle (st : Style) : Style :=
  { st with willChange := "", transition := "", transform := "", opacity := "" }

/-- The end state `showImmediately` writes on one element. -/
def showImmediatelyStyle (st : Style) : Style :=
  { st with opacity := "1", transform := "none", transition := "", willChange := "" }

/-- `showImmediately(nodes)`: every node gets the fully revealed end state,
with the transition and will-change properties cleared (never set). -/
def showImmediately (nodes : List Elem) : List (Elem × Style) :=
  nodes.map fun el => (el, showImmediatelyStyle emptyStyle)

/-- `Number(el.getAttribute('data-intro-order') || 0)`: absent order reads 0. -/
def introOrderOf (el : Elem) : Int :=
  el.attrs.introOrder.getD 0

/-- The comparator of `runIntro`'s sort (`ao - bo` negative-or-zero, i.e.
ascending order keys); JS `Array.prototype.sort` is stable. -/
def introLE (a b : Elem) : Bool :=
  introOrderOf a ≤ introOrderOf b

/-- The sorted intro node list (stable sort by `data-intro-order`). -/
def introSorted (nodes : List Elem) : List Elem :=
  nodes.mergeSort introLE

/-- `el.getAttribute('data-intro-from') || 'up'`. -/
def introDirOf (el : Elem) : String :=
  jsOrString el.attrs.introFrom "up"

/-- `const baseDuration = 900`. -/
def baseDuration : Int := 900

/-- `const baseStagger = 220`. -/
def baseStagger : Int := 220

/-- `delayAttr !== null ? Number(delayAttr) : i * baseStagger`. -/
def introDelayOf (el : Elem) (i : Nat) : Int :=
  match el.attrs.introDelay with
  | some d => d
  | none => (i : Int) * baseStagger

/-- What `runIntro` does to one element on the animated path: the initial
hidden style set synchronously, and the delay/duration of the `animateIn`
scheduled 20ms later (followed by `clearTransition`). -/
structure IntroPlan where
  el : Elem
  initial : Style
  delay : Int
  duration : Int
deriving DecidableEq, Repr

/-- The body of `runIntro`'s `nodes.forEach((el, i) => ...)` over the
sorted list. -/
def introPlans (sorted : List Elem) : List IntroPlan :=
  sorted.enum.map fun p =>
    { el := p.2
      initial := setInitialState emptyStyle (introDirOf p.2)
      delay := introDelayOf p.2 p.1
      duration := baseDuration }

/-- The observable outcome of `runIntro`: early return on an empty node
list, the reduced-motion path (final styles, nothing scheduled, no plans),
or the animated path (one plan per sorted node). -/
inductive IntroResult where
  | noop : IntroResult
  | reduced (final : List (Elem × Style)) : IntroResult
  | animated (plans : List IntroPlan) : IntroResult
deriving DecidableEq, Repr

/-- `runIntro()` from the source, as a function of the reduced-motion flag
and the `[data-intro]` node list (in DOM order). -/
def runIntro (prefersReduced : Bool) (nodes : List Elem) : IntroResult :=
  if nodes.length = 0 then .noop
  else if prefersReduced then .reduced (showImmediately nodes)
  else .animated (introPlans (introSorted nodes))

/-- `getDynamicThreshold(nodes)` from the source. -/
def getDynamicThreshold (nodes : List Elem) : Rat :=
  let n := nodes.length
  if n > 40 then 5 / 100
  else if n > 20 then 1 / 10
  else 15 / 100

/-- `onceAttr === null ? true : onceAttr === 'true'`. -/
def parseOnce (attr : Option String) : Bool :=
  match attr with
  | none => true
  | some s => s == "true"

/-- `Number(el.getAttribute('data-reveal-delay') || 0)`. -/
def revealDelayOf (el : Elem) : Int :=
  el.attrs.revealDelay.getD 0

/-- `el.getAttribute('data-reveal-from') || 'up'`. -/
def revealDirOf (el : Elem) : String :=
  jsOrString el.attrs.revealFrom "up"

/-- The fixed duration passed to `animateIn` by the reveal callback. -/
def revealDuration : Int := 800

/-- One `animateIn` + `clearTransition` pair triggered by the reveal
callback for an intersecting element. -/
structure RevealAction where
  el : Elem
  delay : Int
  duration : Int
deriving DecidableEq, Repr

/-- The `entries.forEach(...)` body of the IntersectionObserver callback in
`setupReveals`: skips non-intersecting entries; for each intersecting entry
reads the delay and once-flag, emits the `animateIn`/`clearTransition`
action, and unobserves the element when the once-flag holds.  Returns the
updated observed set and the actions in callback order. -/
def processEntries : List Elem → List (Elem × Bool) → List Elem × List RevealAction
  | observed, [] => (observed, [])
  | observed, entry :: rest =>
    if entry.2 = false then
      processEntries observed rest
    else
      let el := entry.1
      let delay := revealDelayOf el
      let once := parseOnce el.attrs.revealOnce
      let observed' := if once then observed.filter (fun x => x != el) else observed
      let next := processEntries observed' rest
      (next.1, ⟨el, delay, revealDuration⟩ :: next.2)

/-- The host side of `IntersectionObserver`: an intersection event only
produces entries for elements currently observed. -/
def deliver (observed : List Elem) (raw : List (Elem × Bool)) : List (Elem × Bool) :=
  raw.filter fun e => observed.contains e.1

/-- One intersection event: the host filters the raw (element, isIntersecting)
pairs to the observed set and runs the callback on them. -/
def observerStep (observed : List Elem) (raw : List (Elem × Bool)) :
    List Elem × List RevealAction :=
  processEntries observed (deliver observed raw)

/-- A whole sequence of intersection events, accumulating the actions. -/
def runEvents (observed : List Elem) :
    List (List (Elem × Bool)) → List Elem × List RevealAction
  | [] => (observed, [])
  | ev :: rest =>
    let step := observerStep observed ev
    let next := runEvents step.1 rest
    (next.1, step.2 ++ next.2)

/-- The observable outcome of `setupReveals`: early return on an empty
target list, the reduced-motion path, or the observing path (initial hidden
styles, the computed threshold, and every target registered). -/
inductive RevealResult where
  | noop : RevealResult
  | reduced (final : List (Elem × Style)) : RevealResult
  | observing (initials : List (Elem × Style)) (threshold : Rat)
      (observed : List Elem) : RevealResult
deriving DecidableEq, Repr

/-- `setupReveals()` from the source, as a function of the reduced-motion
flag and the `[data-reveal]` target list (in DOM order). -/
def setupReveals (prefersReduced : Bool) (targets : List Elem) : RevealResult :=
  if targets.length = 0 then .noop
  else if prefersReduced then .reduced (showImmediately targets)
  else .observing
    (targets.map fun el => (el, setInitialState emptyStyle (revealDirOf el)))
    (getDynamicThreshold targets)
    targets

/-- The `change` handler of the reduced-motion media query: it calls
`showImmediately` on every `[data-intro],[data-reveal]` element directly in
the handler body — nothing is deferred or scheduled. -/
def changeHandler (all : List Elem) : List (Elem × Style) :=
  showImmediately all

/-- Whether the best-effort `change` subscription ended up attached. -/
inductive AttachOutcome where
  | attached : AttachOutcome
  | failedSilently : AttachOutcome
deriving DecidableEq, Repr

/-- The `try { mq.addEventListener?.('change', ...) } catch (_) {}` wrapper:
an unsupported capability (the attach attempt throwing) is swallowed; the
wrapper always returns normally. -/
def subscribeReducedMotionChange (capability : Except String Unit) : AttachOutcome :=
  match capability with
  | .ok _ => .attached
  | .error _ => .failedSilently

/-- The whole module initialisation: the intro runner, the reveal watcher,
and the best-effort change subscription. -/
def pageInit (prefersReduced : Bool) (introNodes revealTargets : List Elem)
    (capability : Except String Unit) :
    IntroResult × RevealResult × AttachOutcome :=
  (runIntro prefersReduced introNodes,
   setupReveals prefersReduced revealTargets,
   subscribeReducedMotionChange capability)

/-- An element with none of the optional attributes set. -/
def elNoAttrs (n : Nat) : Elem := { id := n }

/-! ### Helper lemmas about the lower-casing of direction strings -/

theorem charToLowerIdem (c : Char) : c.toLower.toLower = c.toLower := by
  have expand : ∀ d : Char, d.toLower =
      if d.toNat ≥ 65 ∧ d.toNat ≤ 90 then Char.ofNat (d.toNat + 32) else d := fun d => rfl
  simp only [expand]
  by_cases h : c.toNat ≥ 65 ∧ c.toNat ≤ 90
  · rw [if_pos h]
    have hv : (c.toNat + 32).isValidChar := Or.inl (by omega)
    have ht : (Char.ofNat (c.toNat + 32)).toNat = c.toNat + 32 := by
      rw [Char.ofNat, dif_pos hv]
      rfl
    rw [ht, if_neg (by omega)]
  · rw [if_neg h, if_neg h]

theorem toLowerCase_idem (s : String) : toLowerCase (toLowerCase s) = toLowerCase s := by
  unfold toLowerCase
  apply congrArg String.mk
  rw [show (String.mk (s.data.map Char.toLower)).data = s.data.map Char.toLower from rfl]
  rw [List.map_map]
  exact List.map_congr_left fun c _ => charToLowerIdem c

theorem stringMkEq (l m : List Char) : String.mk l = String.mk m ↔ l = m :=
  ⟨fun h => by injection h, fun h => by rw [h]⟩

theorem toLowerCase_eq_empty_iff (s : String) : toLowerCase s = "" ↔ s = "" := by
  cases s with
  | mk data =>
    show String.mk (data.map Char.toLower) = String.mk [] ↔ String.mk data = String.mk []
    rw [stringMkEq, stringMkEq]
    simp

/-! ### Claim theorems -/

/-- C3: for every list of reveal-flagged elements the computed intersection
threshold depends only on the list's length n: 0.05 when n > 40, 0.10 when
20 < n ≤ 40, and 0.15 otherwise. -/
theorem getDynamicThreshold_spec (nodes : List Elem) :
    (40 < nodes.length → getDynamicThreshold nodes = 5 / 100) ∧
    (20 < nodes.length → nodes.length ≤ 40 → getDynamicThreshold nodes = 1 / 10) ∧
    (nodes.length ≤ 20 → getDynamicThreshold nodes = 15 / 100) ∧
    (∀ other : List Elem, other.length = nodes.length →
      getDynamicThreshold other = getDynamicThreshold nodes) := by
  refine ⟨fun h => ?_, fun h1 h2 => ?_, fun h => ?_, fun other h => ?_⟩
  · simp only [getDynamicThreshold]
    rw [if_pos h]
  · simp only [getDynamicThreshold]
    rw [if_neg (by omega), if_pos h1]
  · simp only [getDynamicThreshold]
    rw [if_neg (by omega), if_neg (by omega)]
  · simp only [getDynamicThreshold, h]

/-- Witness for C3 at the population sizes named by the spec: 45, 25 and 10
reveal-flagged elements. -/
theorem getDynamicThreshold_spec_witness :
    getDynamicThreshold (List.replicate 45 (elNoAttrs 0)) = 5 / 100 ∧
    getDynamicThreshold (List.replicate 25 (elNoAttrs 0)) = 1 / 10 ∧
    getDynamicThreshold (List.replicate 10 (elNoAttrs 0)) = 15 / 100 :=
  ⟨(getDynamicThreshold_spec _).1 (by simp),
   (getDynamicThreshold_spec _).2.1 (by simp) (by simp),
   (getDynamicThreshold_spec _).2.2.1 (by simp)⟩

/-- C9: the reveal once-flag parses to `true` exactly when the attribute is
absent or its value is the exact string "true"; 'True', 'TRUE', '1' and ''
all parse to `false`, in contrast with the case-insensitive direction
parsing (`translateFrom`). -/
theorem parseOnce_spec :
    (∀ a : Option String, parseOnce a = (a == none || a == some "true")) ∧
    parseOnce (some "True") = false ∧
    parseOnce (some "TRUE") = false ∧
    parseOnce (some "1") = false ∧
    parseOnce (some "") = false ∧
    parseOnce none = true ∧
    parseOnce (some "true") = true ∧
    translateFrom "True" 10 = translateFrom "true" 10 ∧
    parseOnce (some "True") ≠ parseOnce (some "true") := by
  refine ⟨fun a => ?_, by decide, by decide, by decide, by decide, by decide,
    by decide, by decide, by decide⟩
  cases a with
  | none => rfl
  | some s => simp [parseOnce]

/-- C10: an intersection-callback entry whose element is not intersecting is
skipped entirely: no action is emitted and the observed set (hence the
element's registration) is exactly what processing the remaining entries
yields. -/
theorem nonIntersecting_entry_noop (observed : List Elem) (el : Elem)
    (rest : List (Elem × Bool)) :
    processEntries observed ((el, false) :: rest) = processEntries observed rest := by
  simp [processEntries]

/-- C4: the direction-to-transform mapping is case-insensitive and total:
'up', 'down', 'left', 'right' map to the corresponding 10px offsets, 'fade'
to the neutral transform, every unrecognized value falls back to the 'up'
mapping, and an element without a direction attribute gets the 'up' 10px
offset as its initial transform (both intro and reveal). -/
theorem translateFrom_spec :
    (∀ (s : String) (px : Nat), translateFrom (toLowerCase s) px = translateFrom s px) ∧
    translateFrom "up" 10 = "translateY(10px)" ∧
    translateFrom "down" 10 = "translateY(-10px)" ∧
    translateFrom "left" 10 = "translateX(10px)" ∧
    translateFrom "right" 10 = "translateX(-10px)" ∧
    translateFrom "fade" 10 = "translateZ(0)" ∧
    (∀ (s : String) (px : Nat), toLowerCase s ≠ "down" → toLowerCase s ≠ "left" →
      toLowerCase s ≠ "right" → toLowerCase s ≠ "fade" →
      translateFrom s px = translateFrom "up" px) ∧
    (∀ el : Elem, el.attrs.introFrom = none →
      (setInitialState emptyStyle (introDirOf el)).transform = "translateY(10px)") ∧
    (∀ el : Elem, el.attrs.revealFrom = none →
      (setInitialState emptyStyle (revealDirOf el)).transform = "translateY(10px)") := by
  refine ⟨fun s px => ?_, by decide, by decide, by decide, by decide, by decide,
    fun s px h1 h2 h3 h4 => ?_, fun el h => ?_, fun el h => ?_⟩
  · by_cases h : s = ""
    · subst h
      rfl
    · have h2 : toLowerCase s ≠ "" := fun hc => h ((toLowerCase_eq_empty_iff s).mp hc)
      simp only [translateFrom, if_neg h, if_neg h2, toLowerCase_idem]
  · by_cases h : s = ""
    · subst h
      rfl
    · simp only [translateFrom, if_neg h]
      rw [if_neg h1, if_neg h2, if_neg h3, if_neg h4]
      rfl
  · simp only [setInitialState, introDirOf, jsOrString, h]
    rfl
  · simp only [setInitialState, revealDirOf, jsOrString, h]
    rfl

/-- Witness for C4: an unrecognized direction string falls back to the 'up'
mapping, and an element with no direction attribute gets the 'up' offset. -/
theorem translateFrom_spec_witness :
    translateFrom "diagonal" 10 = translateFrom "up" 10 ∧
    (setInitialState emptyStyle (introDirOf (elNoAttrs 3))).transform = "translateY(10px)" :=
  ⟨translateFrom_spec.2.2.2.2.2.2.1 "diagonal" 10 (by decide) (by decide)
      (by decide) (by decide),
   translateFrom_spec.2.2.2.2.2.2.2.1 (elNoAttrs 3) (by decide)⟩

/-- C5: with reduced motion active at initialization, both subsystems set
every flagged element to the fully-revealed end state (opacity "1",
transform "none") with the transition property left unset, and do nothing
else: the result is the `reduced` outcome, which carries no animation plans,
no staggering and no observer registration. -/
theorem reduced_motion_spec (introNodes revealTargets : List Elem)
    (hIntro : introNodes ≠ []) (hReveal : revealTargets ≠ []) :
    runIntro true introNodes =
      .reduced (introNodes.map fun el =>
        (el, { opacity := "1", transform := "none", transition := "", willChange := "" })) ∧
    setupReveals true revealTargets =
      .reduced (revealTargets.map fun el =>
        (el, { opacity := "1", transform := "none", transition := "", willChange := "" })) := by
  constructor
  · have hlen : ¬ introNodes.length = 0 := by simpa using hIntro
    simp [runIntro, hlen, showImmediately, showImmediatelyStyle, emptyStyle]
  · have hlen : ¬ revealTargets.length = 0 := by simpa using hReveal
    simp [setupReveals, hlen, showImmediately, showImmediatelyStyle, emptyStyle]

/-- Witness for C5 on concrete one-element populations. -/
theorem reduced_motion_spec_witness :
    runIntro true [elNoAttrs 0] =
      .reduced [(elNoAttrs 0,
        { opacity := "1", transform := "none", transition := "", willChange := "" })] ∧
    setupReveals true [elNoAttrs 1] =
      .reduced [(elNoAttrs 1,
        { opacity := "1", transform := "none", transition := "", willChange := "" })] := by
  have h := reduced_motion_spec [elNoAttrs 0] [elNoAttrs 1] (by decide) (by decide)
  exact ⟨h.1.trans (by decide), h.2.trans (by decide)⟩

theorem introPlans_length (l : List Elem) : (introPlans l).length = l.length := by
  simp [introPlans, List.enum]

theorem introPlans_getElem (l : List Elem) (i : Nat)
    (h : i < (introPlans l).length) (h2 : i < l.length) :
    (introPlans l)[i] =
      { el := l[i]
        initial := setInitialState emptyStyle (introDirOf l[i])
        delay := introDelayOf l[i] i
        duration := baseDuration } := by
  simp [introPlans, List.enum, List.getElem_enumFrom]

/-- C1: on the animated path, the i-th plan (over the sorted node list) uses
the element's explicit delay attribute when present and i × 220 otherwise,
always with the fixed base duration 900. -/
theorem intro_delay_duration_spec (nodes : List Elem) (hne : nodes ≠ [])
    (i : Nat) (hi : i < (introPlans (introSorted nodes)).length) :
    runIntro false nodes = .animated (introPlans (introSorted nodes)) ∧
    ((introPlans (introSorted nodes))[i].el.attrs.introDelay = none →
      (introPlans (introSorted nodes))[i].delay = (i : Int) * 220) ∧
    (∀ d : Int, (introPlans (introSorted nodes))[i].el.attrs.introDelay = some d →
      (introPlans (introSorted nodes))[i].delay = d) ∧
    (introPlans (introSorted nodes))[i].duration = 900 := by
  have hs : i < (introSorted nodes).length := by
    simpa [introPlans_length] using hi
  refine ⟨?_, ?_, ?_, ?_⟩
  · have hlen : ¬ nodes.length = 0 := by simpa using hne
    simp [runIntro, hlen]
  · intro h
    rw [introPlans_getElem _ _ hi hs] at h ⊢
    simp only at h
    simp [introDelayOf, h, baseStagger]
  · intro d h
    rw [introPlans_getElem _ _ hi hs] at h ⊢
    simp only at h
    simp [introDelayOf, h]
  · rw [introPlans_getElem _ _ hi hs]
    rfl

theorem introSorted_noAttrs :
    introSorted [elNoAttrs 0, elNoAttrs 1] = [elNoAttrs 0, elNoAttrs 1] :=
  List.mergeSort_of_sorted (by decide)

/-- Witness for C1: two attribute-less intro elements; the second gets the
staggered delay 1 × 220 and duration 900. -/
theorem intro_delay_duration_spec_witness :
    runIntro false [elNoAttrs 0, elNoAttrs 1] =
      .animated (introPlans (introSorted [elNoAttrs 0, elNoAttrs 1])) ∧
    ((introPlans (introSorted [elNoAttrs 0, elNoAttrs 1])).get
      ⟨1, by rw [introPlans_length, introSorted_noAttrs]; decide⟩).delay = (1 : Int) * 220 := by
  have h := intro_delay_duration_spec [elNoAttrs 0, elNoAttrs 1] (by decide) 1
    (by rw [introPlans_length, introSorted_noAttrs]; decide)
  refine ⟨h.1, h.2.1 ?_⟩
  rw [List.getElem_of_eq (congrArg introPlans introSorted_noAttrs)]
  decide

/-- An element whose only attribute is an explicit `data-intro-order`. -/
def elOrd (n : Nat) (o : Int) : Elem :=
  { id := n, attrs := { introOrder := some o } }

/-- C2: the intro runner animates the nodes in ascending order of their
numeric order attribute (missing attribute read as 0): the sorted list is a
permutation of the input, is pairwise ordered by the order keys, and the
sort is stable — any input pair already in key order (in particular any tie)
keeps its DOM order. -/
theorem intro_order_spec (nodes : List Elem) :
    (introSorted nodes).Perm nodes ∧
    (introSorted nodes).Pairwise (fun a b => introOrderOf a ≤ introOrderOf b) ∧
    (∀ a b : Elem, introOrderOf a ≤ introOrderOf b → [a, b].Sublist nodes →
      [a, b].Sublist (introSorted nodes)) ∧
    (∀ el : Elem, el.attrs.introOrder = none → introOrderOf el = 0) := by
  have trans : ∀ a b c : Elem, introLE a b → introLE b c → introLE a c := by
    intro a b c hab hbc
    simp only [introLE, decide_eq_true_eq] at hab hbc ⊢
    omega
  have total : ∀ a b : Elem, introLE a b || introLE b a := by
    intro a b
    simp only [introLE, Bool.or_eq_true, decide_eq_true_eq]
    omega
  refine ⟨List.mergeSort_perm nodes introLE, ?_, ?_, ?_⟩
  · have h := List.sorted_mergeSort trans total nodes
    exact h.imp (by intro a b hab; simpa [introLE] using hab)
  · intro a b hab hsub
    exact List.pair_sublist_mergeSort trans total (by simpa [introLE] using hab) hsub
  · intro el h
    simp [introOrderOf, h]

/-- Witness for C2: two elements tied on order 1, preceded in DOM order by a
higher-order element; the tied pair keeps its DOM order in the sorted list. -/
theorem intro_order_spec_witness :
    [elOrd 0 1, elOrd 1 1].Sublist (introSorted [elOrd 2 5, elOrd 0 1, elOrd 1 1]) :=
  (intro_order_spec [elOrd 2 5, elOrd 0 1, elOrd 1 1]).2.2.1 (elOrd 0 1) (elOrd 1 1)
    (by decide) (by decide)

theorem processEntries_observed_subset :
    ∀ (entries : List (Elem × Bool)) (observed : List Elem) (x : Elem),
      x ∈ (processEntries observed entries).1 → x ∈ observed := by
  intro entries
  induction entries with
  | nil =>
    intro observed x hx
    exact hx
  | cons e rest ih =>
    intro observed x hx
    simp only [processEntries] at hx
    split at hx
    · exact ih observed x hx
    · have hx' := ih _ x hx
      split at hx'
      · exact List.mem_of_mem_filter hx'
      · exact hx'

theorem processEntries_actions_sub :
    ∀ (entries : List (Elem × Bool)) (observed : List Elem) (a : RevealAction),
      a ∈ (processEntries observed entries).2 → (a.el, true) ∈ entries := by
  intro entries
  induction entries with
  | nil =>
    intro observed a ha
    simp [processEntries] at ha
  | cons e rest ih =>
    obtain ⟨ee, bb⟩ := e
    intro observed a ha
    simp only [processEntries] at ha
    split at ha
    · exact List.mem_cons_of_mem _ (ih observed a ha)
    · rename_i hb
      have hb2 : bb = true := by
        revert hb
        cases bb <;> simp
      subst hb2
      simp only [List.mem_cons] at ha
      rcases ha with h | h
      · subst h
        exact List.mem_cons_self _ _
      · exact List.mem_cons_of_mem _ (ih _ a h)

theorem processEntries_once_removed :
    ∀ (entries : List (Elem × Bool)) (observed : List Elem) (el : Elem),
      parseOnce el.attrs.revealOnce = true → (el, true) ∈ entries →
      el ∉ (processEntries observed entries).1 := by
  intro entries
  induction entries with
  | nil =>
    intro observed el _ hmem
    simp at hmem
  | cons e rest ih =>
    obtain ⟨ee, bb⟩ := e
    intro observed el honce hmem
    simp only [List.mem_cons] at hmem
    rcases hmem with heq | hmem
    · cases heq
      simp only [processEntries]
      rw [if_neg (by simp)]
      simp only
      rw [if_pos honce]
      intro hmem2
      have h3 := processEntries_observed_subset rest _ _ hmem2
      simp [List.mem_filter] at h3
    · simp only [processEntries]
      split
      · exact ih observed el honce hmem
      · exact ih _ el honce hmem

theorem deliver_not_observed (observed : List Elem) (raw : List (Elem × Bool))
    (el : Elem) (h : el ∉ observed) : ∀ b : Bool, (el, b) ∉ deliver observed raw := by
  intro b hb
  simp only [deliver, List.mem_filter] at hb
  exact h (by simpa using hb.2)

theorem observerStep_not_observed (observed : List Elem) (raw : List (Elem × Bool))
    (el : Elem) (h : el ∉ observed) :
    el ∉ (observerStep observed raw).1 ∧
    ∀ a ∈ (observerStep observed raw).2, a.el ≠ el := by
  constructor
  · intro hmem
    exact h (processEntries_observed_subset _ _ _ hmem)
  · intro a ha heq
    have hsub := processEntries_actions_sub _ _ _ ha
    rw [heq] at hsub
    exact deliver_not_observed observed raw el h true hsub

theorem runEvents_not_observed :
    ∀ (evs : List (List (Elem × Bool))) (observed : List Elem) (el : Elem),
      el ∉ observed →
      el ∉ (runEvents observed evs).1 ∧ ∀ a ∈ (runEvents observed evs).2, a.el ≠ el := by
  intro evs
  induction evs with
  | nil =>
    intro observed el h
    exact ⟨h, by simp [runEvents]⟩
  | cons ev rest ih =>
    intro observed el h
    have step := observerStep_not_observed observed ev el h
    have next := ih (observerStep observed ev).1 el step.1
    refine ⟨next.1, ?_⟩
    intro a ha
    simp only [runEvents, List.mem_append] at ha
    rcases ha with h1 | h1
    · exact step.2 a h1
    · exact next.2 a h1

/-- C6: a reveal element whose once-flag parses to true (the default when
the attribute is absent) is removed from observation by the first
intersection event that delivers it as intersecting, and is never processed
again: no later event sequence re-observes it or emits any action for it. -/
theorem reveal_once_spec (observed : List Elem) (raw : List (Elem × Bool))
    (evs : List (List (Elem × Bool))) (el : Elem)
    (honce : parseOnce el.attrs.revealOnce = true)
    (hmem : (el, true) ∈ deliver observed raw) :
    el ∉ (observerStep observed raw).1 ∧
    el ∉ (runEvents (observerStep observed raw).1 evs).1 ∧
    ∀ a ∈ (runEvents (observerStep observed raw).1 evs).2, a.el ≠ el := by
  have h1 : el ∉ (observerStep observed raw).1 :=
    processEntries_once_removed _ observed el honce hmem
  have h2 := runEvents_not_observed evs _ el h1
  exact ⟨h1, h2.1, h2.2⟩

/-- Witness for C6: element 0 (no attributes, so once defaults to true)
intersects in the first event and is dropped from the observed set. -/
theorem reveal_once_spec_witness :
    elNoAttrs 0 ∉ (observerStep [elNoAttrs 0, elNoAttrs 1] [(elNoAttrs 0, true)]).1 :=
  (reveal_once_spec [elNoAttrs 0, elNoAttrs 1] [(elNoAttrs 0, true)]
    [[(elNoAttrs 0, true)]] (elNoAttrs 0) (by decide) (by decide)).1

/-- C7 fails on the code: for two intro elements carrying no attributes, the
second plan (index 1) is scheduled with duration 900 and staggered delay
1 × 220, so its duration + delay is 1120, which the fixed 1100ms cleanup
window of `clearTransition` does not exceed. -/
theorem cleanup_window_not_exceeding :
    ((introPlans (introSorted [elNoAttrs 0, elNoAttrs 1])).map
      (fun p => p.duration + p.delay)) = [900, 1120] ∧
    ¬ ((introPlans (introSorted [elNoAttrs 0, elNoAttrs 1])).all
      (fun p => p.duration + p.delay < clearTransitionDelay)) := by
  rw [introSorted_noAttrs]
  decide

/-- C8: the reduced-motion change handler maps every currently flagged
element straight to the end state (opacity "1", transform "none", transition
cleared) in the same synchronous call — `changeHandler` defers nothing —
and the best-effort subscription never propagates a failure: an unsupported
capability yields `failedSilently`, and the intro and reveal outcomes of
`pageInit` are unaffected by whether the subscription attached. -/
theorem change_subscription_spec :
    (∀ all : List Elem, changeHandler all = all.map fun el =>
      (el, { opacity := "1", transform := "none", transition := "", willChange := "" })) ∧
    (∀ capability : Except String Unit,
      subscribeReducedMotionChange capability = .attached ∨
      subscribeReducedMotionChange capability = .failedSilently) ∧
    (∀ e : String, subscribeReducedMotionChange (.error e) = .failedSilently) ∧
    (∀ (pr : Bool) (introNodes revealTargets : List Elem)
      (cap other : Except String Unit),
      (pageInit pr introNodes revealTargets cap).1 =
        (pageInit pr introNodes revealTargets other).1 ∧
      (pageInit pr introNodes revealTargets cap).2.1 =
        (pageInit pr introNodes revealTargets other).2.1) := by
  refine ⟨fun all => ?_, fun c => ?_, fun e => rfl, fun pr i r c c2 => ⟨rfl, rfl⟩⟩
  · simp [changeHandler, showImmediately, showImmediatelyStyle, emptyStyle]
  · cases c with
    | ok u => exact Or.inl rfl
    | error e => exact Or.inr rfl
